import Mathlib

/-!
Shallow embedding of the Purple compiler's LLVM-IR emission core
(`src/translate/llvm.c`) and the clang toolchain-probe status handling
(`src/utils/clang.c`).  Global mutable state (the virtual-register
counter `D_LLVM_LOCAL_VIRTUAL_REGISTER_NUMBER`, the loaded-register
linked list `loadedRegistersHead`, the free-register linked list
`freeVirtualRegistersHead`) is threaded explicitly as a `CompilerState`;
text written to `D_LLVM_FILE` is modelled as a list of structured
instructions appended by each operation.
-/

namespace Purple

/-- Token kinds from `scan.c` / the token header. -/
inductive TokenType where
  | T_EOF
  | T_PLUS
  | T_MINUS
  | T_STAR
  | T_SLASH
  | T_EXPONENT
  | T_SEMICOLON
  | T_INTEGER_LITERAL
  | T_PRINT
deriving DecidableEq, Repr

/-- Number types from `number.h` (currently exactly `NT_INT32`). -/
inductive NumberType where
  | NT_INT32
deriving DecidableEq, Repr

/-- `numberTypeByteSizes` table from `number.h`. -/
def numberTypeByteSizes : NumberType → Nat
  | .NT_INT32 => 4

/-- `numberTypeFormatStrings` table from `number.h`. -/
def numberTypeFormatStrings : NumberType → String
  | .NT_INT32 => "%d"

/-- Modelled from the spec: the `numberTypeLLVMReprs` table lives in a
header not present in the sources; per the spec the single entry is the
4-byte signed integer representation. -/
def numberTypeLLVMReprs : NumberType → String
  | .NT_INT32 => "i32"

/-- The `Number` struct from `number.h`: a type tag and an integer value. -/
structure Number where
  type : NumberType
  int_value : Int
deriving DecidableEq, Repr

/-- Modelled from the spec: the `LLVMValue` tag distinguishing value
references from address (pointer) references; the `LLVMValue` struct
itself is declared in a header not present in the sources, but
`llvm.c` accesses `.value.virtual_register_index` and builds values via
the `LLVMVALUE_VIRTUAL_REGISTER` / `LLVMVALUE_VIRTUAL_REGISTER_POINTER`
macros. -/
inductive LLVMValueType where
  | virtualRegister
  | virtualRegisterPointer
deriving DecidableEq, Repr

/-- The `LLVMValue` tagged union: a kind tag plus a register index. -/
structure LLVMValue where
  value_type : LLVMValueType
  virtual_register_index : Nat
deriving DecidableEq, Repr

/-- The `LLVMVALUE_VIRTUAL_REGISTER` constructor macro. -/
def LLVMVALUE_VIRTUAL_REGISTER (r : Nat) : LLVMValue :=
  ⟨.virtualRegister, r⟩

/-- The `LLVMVALUE_VIRTUAL_REGISTER_POINTER` constructor macro. -/
def LLVMVALUE_VIRTUAL_REGISTER_POINTER (r : Nat) : LLVMValue :=
  ⟨.virtualRegisterPointer, r⟩

/-- One `LLVMStackEntryNode` of the stack-allocation list (the fields
`llvm_stack_allocation` reads: register, number type, alignment). -/
structure LLVMStackEntry where
  reg : Nat
  type : NumberType
  align_bytes : Nat
deriving DecidableEq, Repr

/-- Return codes used by `fatal` (from the logging header, named at the
call sites in the sources). -/
inductive ReturnCode where
  | RC_ERROR
  | RC_FILE_ERROR
  | RC_MEMORY_ERROR
  | RC_COMPILER_ERROR
  | RC_SYNTAX_ERROR
deriving DecidableEq, Repr

/-- One emitted IR instruction, one constructor per `fprintf` format in
the emission functions of `llvm.c`. -/
inductive Instr where
  /-- `%dst = load i32, i32* %src, align 4` -/
  | load (dst src : Nat)
  /-- `%reg = alloca <typeRepr>, align <align>` -/
  | alloca (reg : Nat) (typeRepr : String) (align : Nat)
  /-- `%dst = add nsw i32 %l, %r` -/
  | add (dst l r : Nat)
  /-- `%dst = sub nsw i32 %l, %r` -/
  | sub (dst l r : Nat)
  /-- `%dst = mul nsw i32 %l, %r` -/
  | mul (dst l r : Nat)
  /-- `%dst = udiv i32 %l, %r` -/
  | udiv (dst l r : Nat)
  /-- `store <typeRepr> <fmt-printed value>, <typeRepr>* %ptr, align <align>` -/
  | store (typeRepr : String) (fmt : String) (value : Int) (ptr : Nat) (align : Nat)
  /-- `call i32 (i8*, ...) @printf(... @print_int_fstring ..., i32 %reg)` -/
  | printCall (reg : Nat)
deriving DecidableEq, Repr

/-- Whether an instruction is a stack allocation. -/
def Instr.isAlloca : Instr → Bool
  | .alloca .. => true
  | _ => false

/-- Whether an instruction is a load. -/
def Instr.isLoad : Instr → Bool
  | .load .. => true
  | _ => false

/-- The process-wide mutable state of one compilation pass:
`D_LLVM_LOCAL_VIRTUAL_REGISTER_NUMBER`, the `loadedRegistersHead`
linked list (head first), and the `freeVirtualRegistersHead` linked
list (head first, register fields only). -/
structure CompilerState where
  nextReg : Nat
  loadedRegisters : List Nat
  freeRegisters : List Nat
deriving DecidableEq, Repr

/-- `prepend_loaded` (`llvm.c:20-32`): push `reg` onto the head of the
loaded-register linked list (both the empty and non-empty branches of
the C code produce `reg :: old`). -/
def prepend_loaded (reg : Nat) (s : CompilerState) : CompilerState :=
  { s with loadedRegisters := reg :: s.loadedRegisters }

/-- `get_next_local_virtual_register` (`llvm.c:261-264`): post-increment
of the virtual-register counter. -/
def get_next_local_virtual_register (s : CompilerState) : Nat × CompilerState :=
  (s.nextReg, { s with nextReg := s.nextReg + 1 })

/-- The second phase of `llvm_ensure_registers_loaded` (`llvm.c:55-64`):
walk the input registers with the `found_registers` flags fixed against
the cache as it stood at entry (`cache0`); a found register is passed
through unchanged, an unfound one gets a freshly minted register, one
emitted load, and a `prepend_loaded` of the fresh register. -/
def ensureLoop (cache0 : List Nat) :
    List Nat → CompilerState → List Nat × CompilerState × List Instr
  | [], s => ([], s, [])
  | r :: rest, s =>
    if r ∈ cache0 then
      let (res, s1, is) := ensureLoop cache0 rest s
      (r :: res, s1, is)
    else
      let (fresh, s1) := get_next_local_virtual_register s
      let s2 := prepend_loaded fresh s1
      let (res, s3, is) := ensureLoop cache0 rest s2
      (fresh :: res, s3, .load fresh r :: is)

/-- `llvm_ensure_registers_loaded` (`llvm.c:34-67`).  The scan over the
cache marks input position `i` found exactly when `registers[i]` occurs
in the loaded-register list, and returns the `NULL` sentinel (here
`none`) as soon as every position is marked — which for a non-empty
input happens iff every input register is cached.  Otherwise the
second phase runs (`ensureLoop`).  The C `found_registers` array is
read before being written; it is modelled as all-false initialized,
the evident intent.  `n_registers = 0` never reaches the sentinel
check and yields the empty list. -/
def llvm_ensure_registers_loaded (registers : List Nat) (s : CompilerState) :
    Option (List Nat) × CompilerState × List Instr :=
  if registers ≠ [] ∧ ∀ r ∈ registers, r ∈ s.loadedRegisters then
    (none, s, [])
  else
    let (res, s1, is) := ensureLoop s.loadedRegisters registers s
    (some res, s1, is)

/-- `llvm_stack_allocation` (`llvm.c:126-135`): one `alloca` line per
stack entry, in list order, naming the entry's type representation and
alignment. -/
def llvm_stack_allocation (stack_entries : List LLVMStackEntry) : List Instr :=
  stack_entries.map fun e =>
    .alloca e.reg (numberTypeLLVMReprs e.type) e.align_bytes

/-- `llvm_add` (`llvm.c:144-150`): mint a register, emit one `add nsw`
line, return `D_LLVM_LOCAL_VIRTUAL_REGISTER_NUMBER - 1`. -/
def llvm_add (l r : LLVMValue) (s : CompilerState) :
    Nat × CompilerState × List Instr :=
  let (dst, s1) := get_next_local_virtual_register s
  (s1.nextReg - 1, s1,
   [.add dst l.virtual_register_index r.virtual_register_index])

/-- `llvm_subtract` (`llvm.c:159-166`). -/
def llvm_subtract (l r : LLVMValue) (s : CompilerState) :
    Nat × CompilerState × List Instr :=
  let (dst, s1) := get_next_local_virtual_register s
  (s1.nextReg - 1, s1,
   [.sub dst l.virtual_register_index r.virtual_register_index])

/-- `llvm_multiply` (`llvm.c:175-182`). -/
def llvm_multiply (l r : LLVMValue) (s : CompilerState) :
    Nat × CompilerState × List Instr :=
  let (dst, s1) := get_next_local_virtual_register s
  (s1.nextReg - 1, s1,
   [.mul dst l.virtual_register_index r.virtual_register_index])

/-- `llvm_divide` (`llvm.c:191-197`). -/
def llvm_divide (l r : LLVMValue) (s : CompilerState) :
    Nat × CompilerState × List Instr :=
  let (dst, s1) := get_next_local_virtual_register s
  (s1.nextReg - 1, s1,
   [.udiv dst l.virtual_register_index r.virtual_register_index])

/-- `llvm_binary_arithmetic` (`llvm.c:207-238`): dispatch on the
operator; the four arithmetic cases emit via the helper and then
`prepend_loaded` the result register; `T_EXPONENT` and every other
token call `fatal(RC_COMPILER_ERROR, ...)`, which aborts before any
emission or state change. -/
def llvm_binary_arithmetic (operation : TokenType) (l r : LLVMValue)
    (s : CompilerState) :
    Except ReturnCode LLVMValue × CompilerState × List Instr :=
  match operation with
  | .T_PLUS =>
    let (out, s1, is) := llvm_add l r s
    (.ok (LLVMVALUE_VIRTUAL_REGISTER out), prepend_loaded out s1, is)
  | .T_MINUS =>
    let (out, s1, is) := llvm_subtract l r s
    (.ok (LLVMVALUE_VIRTUAL_REGISTER out), prepend_loaded out s1, is)
  | .T_STAR =>
    let (out, s1, is) := llvm_multiply l r s
    (.ok (LLVMVALUE_VIRTUAL_REGISTER out), prepend_loaded out s1, is)
  | .T_SLASH =>
    let (out, s1, is) := llvm_divide l r s
    (.ok (LLVMVALUE_VIRTUAL_REGISTER out), prepend_loaded out s1, is)
  | .T_EXPONENT => (.error .RC_COMPILER_ERROR, s, [])
  | _ => (.error .RC_COMPILER_ERROR, s, [])

/-- Modelled from the spec: `pop_stack_entry_linked_list` applied to
`freeVirtualRegistersHead` (its definition lives in a file not present
in the sources); per the spec the store obtains its target register by
"reusing one from the free-register stack if available, otherwise
minting a new one". -/
def pop_stack_entry_linked_list (s : CompilerState) : Nat × CompilerState :=
  match s.freeRegisters with
  | [] => get_next_local_virtual_register s
  | r :: rest => (r, { s with freeRegisters := rest })

/-- `llvm_store_constant` (`llvm.c:246-254`): pop a target register,
emit one `store` line (type representation, type-specific format
string, value, register, byte size), return a pointer-tagged
`LLVMValue`. -/
def llvm_store_constant (value : Number) (s : CompilerState) :
    LLVMValue × CompilerState × List Instr :=
  let (out_register_number, s1) := pop_stack_entry_linked_list s
  (LLVMVALUE_VIRTUAL_REGISTER_POINTER out_register_number, s1,
   [.store (numberTypeLLVMReprs value.type) (numberTypeFormatStrings value.type)
      value.int_value out_register_number (numberTypeByteSizes value.type)])

/-- `llvm_print_int` (`llvm.c:271-278`): consume one virtual register
(result discarded), then emit one `call ... @printf` line naming only
`print_vr`. -/
def llvm_print_int (print_vr : Nat) (s : CompilerState) :
    CompilerState × List Instr :=
  let (_, s1) := get_next_local_virtual_register s
  (s1, [.printCall print_vr])

/-- Outcome of one clang invocation's status handling: continue
silently, log an error and continue (`purple_log(LOG_ERROR, ...)`), or
abort (`fatal`). -/
inductive ProbeOutcome where
  | ok
  | loggedError
  | fatalError (rc : ReturnCode)
deriving DecidableEq, Repr

/-- The `pclose` status handling of `create_tmp_generator_program`
(`clang.c:95-104`): both the spawn-failure branch (`-1`) and the
non-zero-exit branch only call `purple_log(LOG_ERROR, ...)` and fall
through to `generatorProgramWritten = true`. -/
def create_tmp_generator_program_status (clang_status : Int) : ProbeOutcome :=
  if clang_status = -1 then .loggedError
  else if clang_status ≠ 0 then .loggedError
  else .ok

/-- The `pclose` status handling of `get_target_triple`
(`clang.c:198-204`): both the spawn-failure branch (`-1`) and the
non-zero-exit branch call `fatal(RC_ERROR, ...)`. -/
def get_target_triple_status (clang_status : Int) : ProbeOutcome :=
  if clang_status = -1 then .fatalError .RC_ERROR
  else if clang_status ≠ 0 then .fatalError .RC_ERROR
  else .ok

/-- The fatal branches of `get_target_datalayout` (`clang.c:158-176`):
fatal `RC_FILE_ERROR` when the generated `.ll` file cannot be opened,
fatal `RC_COMPILER_ERROR` when no line matches the datalayout regex,
otherwise the matched string. -/
def get_target_datalayout_outcome (file_opens : Bool)
    (datalayout_line : Option String) : Except ReturnCode String :=
  if !file_opens then .error .RC_FILE_ERROR
  else
    match datalayout_line with
    | some out => .ok out
    | none => .error .RC_COMPILER_ERROR

/-- The binary-expression AST the parser hands to translation: literal
leaves and binary-operator internal nodes. -/
inductive ASTNode where
  | leaf (value : Number)
  | node (op : TokenType) (left right : ASTNode)
deriving DecidableEq, Repr

/-- Modelled from the spec: `ast_to_llvm` (its definition lives in
`translate.c`, not present in the sources).  Post-order walk: a literal
leaf becomes one `llvm_store_constant` call; an internal node resolves
its two children, passes their registers through
`llvm_ensure_registers_loaded` (the `NULL` sentinel meaning both were
already loaded, in which case the children's own registers are used),
then calls `llvm_binary_arithmetic`. -/
def ast_to_llvm : ASTNode → CompilerState →
    Except ReturnCode LLVMValue × CompilerState × List Instr
  | .leaf n, s =>
    let (v, s1, is) := llvm_store_constant n s
    (.ok v, s1, is)
  | .node op left right, s =>
    let (lres, s1, is1) := ast_to_llvm left s
    match lres with
    | .error e => (.error e, s1, is1)
    | .ok lval =>
      let (rres, s2, is2) := ast_to_llvm right s1
      match rres with
      | .error e => (.error e, s2, is1 ++ is2)
      | .ok rval =>
        let (loaded, s3, is3) := llvm_ensure_registers_loaded
          [lval.virtual_register_index, rval.virtual_register_index] s2
        let lreg :=
          match loaded with
          | some (a :: _) => a
          | _ => lval.virtual_register_index
        let rreg :=
          match loaded with
          | some (_ :: b :: _) => b
          | _ => rval.virtual_register_index
        let (out, s4, is4) := llvm_binary_arithmetic op
          (LLVMVALUE_VIRTUAL_REGISTER lreg) (LLVMVALUE_VIRTUAL_REGISTER rreg) s3
        (out, s4, is1 ++ is2 ++ is3 ++ is4)

/-- Modelled from the spec: the function-body part of `generate_llvm`
(`translate.c`, not present in the sources).  The stack-allocation
pre-pass output is emitted first, then the AST walk, then the final
print of the root value; a fatal abort during the walk leaves the
instructions written so far. -/
def generate_llvm_body (stack_entries : List LLVMStackEntry) (root : ASTNode)
    (s : CompilerState) : List Instr :=
  let allocas := llvm_stack_allocation stack_entries
  let (res, s1, is) := ast_to_llvm root s
  match res with
  | .ok v =>
    let (_, is2) := llvm_print_int v.virtual_register_index s1
    allocas ++ is ++ is2
  | .error _ => allocas ++ is

/-- The register identifiers returned by `n` successive calls to
`get_next_local_virtual_register` starting from state `s`. -/
def callsOf (s : CompilerState) : Nat → List Nat
  | 0 => []
  | n + 1 =>
    let (r, s1) := get_next_local_virtual_register s
    r :: callsOf s1 n

/-! ### Helper lemmas about `ensureLoop` -/

theorem ensureLoop_length (cache0 rest : List Nat) (s : CompilerState) :
    (ensureLoop cache0 rest s).1.length = rest.length := by
  induction rest generalizing s with
  | nil => simp [ensureLoop]
  | cons r tl ih =>
    by_cases h : r ∈ cache0 <;>
      simp [ensureLoop, h, ih, get_next_local_virtual_register, prepend_loaded]

theorem ensureLoop_instrs_length (cache0 rest : List Nat) (s : CompilerState) :
    (ensureLoop cache0 rest s).2.2.length
      = (rest.filter (fun r => r ∉ cache0)).length := by
  induction rest generalizing s with
  | nil => simp [ensureLoop]
  | cons r tl ih =>
    by_cases h : r ∈ cache0 <;>
      simp [ensureLoop, h, ih, get_next_local_virtual_register, prepend_loaded,
        List.filter_cons]

theorem ensureLoop_instrs_load (cache0 rest : List Nat) (s : CompilerState) :
    ∀ i ∈ (ensureLoop cache0 rest s).2.2, i.isLoad := by
  induction rest generalizing s with
  | nil => simp [ensureLoop]
  | cons r tl ih =>
    by_cases h : r ∈ cache0
    · simpa [ensureLoop, h] using ih s
    · simp only [ensureLoop, if_neg h, get_next_local_virtual_register, prepend_loaded]
      intro i hi
      rcases List.mem_cons.mp hi with rfl | hi
      · rfl
      · exact ih _ i hi

theorem ensureLoop_cache_suffix (cache0 rest : List Nat) (s : CompilerState) :
    ∃ new, (ensureLoop cache0 rest s).2.1.loadedRegisters
      = new ++ s.loadedRegisters := by
  induction rest generalizing s with
  | nil => exact ⟨[], by simp [ensureLoop]⟩
  | cons r tl ih =>
    by_cases h : r ∈ cache0
    · simpa [ensureLoop, h] using ih s
    · simp only [ensureLoop, if_neg h, get_next_local_virtual_register, prepend_loaded]
      obtain ⟨new, hnew⟩ :=
        ih { s with nextReg := s.nextReg + 1,
                    loadedRegisters := s.nextReg :: s.loadedRegisters }
      exact ⟨new ++ [s.nextReg], by simpa using hnew⟩

theorem ensureLoop_free (cache0 rest : List Nat) (s : CompilerState) :
    (ensureLoop cache0 rest s).2.1.freeRegisters = s.freeRegisters := by
  induction rest generalizing s with
  | nil => simp [ensureLoop]
  | cons r tl ih =>
    by_cases h : r ∈ cache0 <;>
      simp [ensureLoop, h, ih, get_next_local_virtual_register, prepend_loaded]

theorem ensureLoop_pos (cache0 rest : List Nat) (s : CompilerState) :
    ∀ (i : Nat) (r : Nat), rest[i]? = some r →
      (r ∈ cache0 → (ensureLoop cache0 rest s).1[i]? = some r)
      ∧ (r ∉ cache0 → ∃ v, (ensureLoop cache0 rest s).1[i]? = some v
          ∧ Instr.load v r ∈ (ensureLoop cache0 rest s).2.2) := by
  induction rest generalizing s with
  | nil => intro i r h; simp at h
  | cons x tl ih =>
    intro i r h
    by_cases hx : x ∈ cache0
    · match i with
      | 0 =>
        simp only [List.getElem?_cons_zero, Option.some.injEq] at h
        subst h
        exact ⟨fun _ => by simp [ensureLoop, hx], fun hc => absurd hx hc⟩
      | i + 1 =>
        simp only [List.getElem?_cons_succ] at h
        refine ⟨fun hm => ?_, fun hm => ?_⟩
        · have := (ih s i r h).1 hm
          simpa [ensureLoop, hx] using this
        · obtain ⟨v, hv, hmem⟩ := (ih s i r h).2 hm
          refine ⟨v, ?_, ?_⟩
          · simpa [ensureLoop, hx] using hv
          · simpa [ensureLoop, hx] using hmem
    · match i with
      | 0 =>
        simp only [List.getElem?_cons_zero, Option.some.injEq] at h
        subst h
        refine ⟨fun hc => absurd hc hx, fun _ => ?_⟩
        exact ⟨s.nextReg, by simp [ensureLoop, hx, get_next_local_virtual_register,
          prepend_loaded], by simp [ensureLoop, hx, get_next_local_virtual_register,
          prepend_loaded]⟩
      | i + 1 =>
        simp only [List.getElem?_cons_succ] at h
        have hih := ih { s with nextReg := s.nextReg + 1,
                                loadedRegisters := s.nextReg :: s.loadedRegisters } i r h
        refine ⟨fun hm => ?_, fun hm => ?_⟩
        · have := hih.1 hm
          simpa [ensureLoop, hx, get_next_local_virtual_register,
            prepend_loaded] using this
        · obtain ⟨v, hv, hmem⟩ := hih.2 hm
          refine ⟨v, ?_, ?_⟩
          · simpa [ensureLoop, hx, get_next_local_virtual_register,
              prepend_loaded] using hv
          · simp only [ensureLoop, if_neg hx, get_next_local_virtual_register,
              prepend_loaded]
            exact List.mem_cons_of_mem _ hmem

/-! ### Helper lemma about `callsOf` -/

theorem callsOf_eq_range' (s : CompilerState) (n : Nat) :
    callsOf s n = List.range' s.nextReg n := by
  induction n generalizing s with
  | zero => simp [callsOf]
  | succ n ih =>
    simp [callsOf, get_next_local_virtual_register, ih, List.range'_succ]

/-! ### Claim theorems -/

/-- C1 counterexample: the claim says every call returns a list of the
same length and order as the input, but when the (non-empty) input is
already fully cached the function returns the `NULL` sentinel (`none`)
instead of a one-element list: with loaded-register list `[5]`,
requesting `[5]` yields `none`. -/
theorem C1_counterexample :
    llvm_ensure_registers_loaded [5] ⟨6, [5], []⟩ = (none, ⟨6, [5], []⟩, []) := by
  decide

/-- C1 amended: when the input is non-empty and every requested
register is already in the loaded-register cache,
`llvm_ensure_registers_loaded` returns the `NULL` sentinel with no
instruction emitted and no state change; otherwise it returns a list of
the same length and order as the input in which a cached position holds
the input register unchanged and an uncached position holds a register
`v` for which one load of the input register into `v` is emitted. -/
theorem C1_ensure_loaded_amended (registers : List Nat) (s : CompilerState) :
    ((registers ≠ [] ∧ ∀ r ∈ registers, r ∈ s.loadedRegisters) →
        llvm_ensure_registers_loaded registers s = (none, s, []))
  ∧ (¬(registers ≠ [] ∧ ∀ r ∈ registers, r ∈ s.loadedRegisters) →
      ∃ l, (llvm_ensure_registers_loaded registers s).1 = some l
        ∧ l.length = registers.length
        ∧ ∀ (i r : Nat), registers[i]? = some r →
            (r ∈ s.loadedRegisters → l[i]? = some r)
            ∧ (r ∉ s.loadedRegisters → ∃ v, l[i]? = some v
                ∧ Instr.load v r ∈ (llvm_ensure_registers_loaded registers s).2.2)) := by
  by_cases h : registers ≠ [] ∧ ∀ r ∈ registers, r ∈ s.loadedRegisters
  · refine ⟨fun _ => ?_, fun hc => absurd h hc⟩
    unfold llvm_ensure_registers_loaded
    rw [if_pos h]
  · refine ⟨fun hc => absurd hc h, fun _ => ?_⟩
    refine ⟨(ensureLoop s.loadedRegisters registers s).1, ?_, ?_, ?_⟩
    · unfold llvm_ensure_registers_loaded
      rw [if_neg h]
    · exact ensureLoop_length s.loadedRegisters registers s
    · intro i r hir
      have hp := ensureLoop_pos s.loadedRegisters registers s i r hir
      refine ⟨hp.1, fun hm => ?_⟩
      obtain ⟨v, hv, hmem⟩ := hp.2 hm
      refine ⟨v, hv, ?_⟩
      unfold llvm_ensure_registers_loaded
      rw [if_neg h]
      exact hmem

/-- C1 witness: the amended theorem applied at concrete inputs — a
fully cached request returns the sentinel, and an uncached request
returns a one-element list. -/
theorem C1_ensure_loaded_amended_witness :
    llvm_ensure_registers_loaded [5] ⟨6, [5], []⟩ = (none, ⟨6, [5], []⟩, [])
  ∧ ∃ l, (llvm_ensure_registers_loaded [7] ⟨1, [], []⟩).1 = some l
      ∧ l.length = 1 := by
  constructor
  · exact (C1_ensure_loaded_amended [5] ⟨6, [5], []⟩).1 (by decide)
  · obtain ⟨l, h1, h2, -⟩ := (C1_ensure_loaded_amended [7] ⟨1, [], []⟩).2 (by decide)
    exact ⟨l, h1, by simpa using h2⟩

/-- C2 counterexample: the claim says at most one load is ever emitted
per address register across a pass, but the cache records only the
freshly minted destination registers, never the requested address; two
successive calls requesting address `5` from an initially empty cache
each emit a load of `5`. -/
theorem C2_counterexample :
    (llvm_ensure_registers_loaded [5] ⟨1, [], []⟩).2.2 = [Instr.load 1 5]
  ∧ (llvm_ensure_registers_loaded [5]
      (llvm_ensure_registers_loaded [5] ⟨1, [], []⟩).2.1).2.2 = [Instr.load 2 5] := by
  decide

/-- C2 amended: within one call, `llvm_ensure_registers_loaded` emits
exactly one load per input occurrence whose register is absent from the
loaded-register cache at entry (and nothing else); since loads cache
the fresh destination register rather than the address, a later call
requesting the same still-uncached address emits a further load. -/
theorem C2_loads_per_call_amended (registers : List Nat) (s : CompilerState) :
    (llvm_ensure_registers_loaded registers s).2.2.length
      = (registers.filter (fun r => r ∉ s.loadedRegisters)).length
  ∧ ∀ i ∈ (llvm_ensure_registers_loaded registers s).2.2, i.isLoad = true := by
  by_cases h : registers ≠ [] ∧ ∀ r ∈ registers, r ∈ s.loadedRegisters
  · have hfilter : registers.filter (fun r => r ∉ s.loadedRegisters) = [] := by
      rw [List.filter_eq_nil_iff]
      intro a ha
      simp [h.2 a ha]
    constructor
    · unfold llvm_ensure_registers_loaded
      rw [if_pos h, hfilter]
      rfl
    · unfold llvm_ensure_registers_loaded
      rw [if_pos h]
      intro i hi
      simp at hi
  · constructor
    · unfold llvm_ensure_registers_loaded
      rw [if_neg h]
      exact ensureLoop_instrs_length s.loadedRegisters registers s
    · unfold llvm_ensure_registers_loaded
      rw [if_neg h]
      exact ensureLoop_instrs_load s.loadedRegisters registers s

/-- C2 witness: the amended theorem applied to the request `[5, 6]`
against a cache holding only `6` — exactly one load is emitted (for
`5`) and it is a load instruction. -/
theorem C2_loads_per_call_amended_witness :
    (llvm_ensure_registers_loaded [5, 6] ⟨1, [6], []⟩).2.2.length
      = ([5, 6].filter (fun r => r ∉ ([6] : List Nat))).length
  ∧ Instr.isLoad (Instr.load 1 5) = true := by
  have h := C2_loads_per_call_amended [5, 6] ⟨1, [6], []⟩
  exact ⟨h.1, h.2 (Instr.load 1 5) (by decide)⟩

/-- C3: `get_next_local_virtual_register` returns the current counter
value and increments it (post-increment), touching nothing else; hence
the identifiers returned by any sequence of `n` successive calls within
one pass are strictly increasing and contain no repetition. -/
theorem C3_virtual_register_counter (s : CompilerState) (n : Nat) :
    (get_next_local_virtual_register s).1 = s.nextReg
  ∧ (get_next_local_virtual_register s).2 = { s with nextReg := s.nextReg + 1 }
  ∧ (callsOf s n).Pairwise (· < ·)
  ∧ (callsOf s n).Nodup := by
  refine ⟨rfl, rfl, ?_, ?_⟩
  · rw [callsOf_eq_range']
    exact List.pairwise_lt_range' _ _
  · rw [callsOf_eq_range']
    exact List.nodup_range' _ _

/-- C4: each of the four supported operators emits exactly one
arithmetic instruction whose mnemonic matches the operator (`T_PLUS` →
`add nsw`, `T_MINUS` → `sub nsw`, `T_STAR` → `mul nsw`, `T_SLASH` →
`udiv`) over the two operand registers, mints exactly one fresh result
register, prepends that register to the loaded-register cache, and
returns it as a value reference. -/
theorem C4_binary_arithmetic_supported (lv rv : LLVMValue) (s : CompilerState) :
    llvm_binary_arithmetic .T_PLUS lv rv s
      = (.ok (LLVMVALUE_VIRTUAL_REGISTER s.nextReg),
         { s with nextReg := s.nextReg + 1,
                  loadedRegisters := s.nextReg :: s.loadedRegisters },
         [.add s.nextReg lv.virtual_register_index rv.virtual_register_index])
  ∧ llvm_binary_arithmetic .T_MINUS lv rv s
      = (.ok (LLVMVALUE_VIRTUAL_REGISTER s.nextReg),
         { s with nextReg := s.nextReg + 1,
                  loadedRegisters := s.nextReg :: s.loadedRegisters },
         [.sub s.nextReg lv.virtual_register_index rv.virtual_register_index])
  ∧ llvm_binary_arithmetic .T_STAR lv rv s
      = (.ok (LLVMVALUE_VIRTUAL_REGISTER s.nextReg),
         { s with nextReg := s.nextReg + 1,
                  loadedRegisters := s.nextReg :: s.loadedRegisters },
         [.mul s.nextReg lv.virtual_register_index rv.virtual_register_index])
  ∧ llvm_binary_arithmetic .T_SLASH lv rv s
      = (.ok (LLVMVALUE_VIRTUAL_REGISTER s.nextReg),
         { s with nextReg := s.nextReg + 1,
                  loadedRegisters := s.nextReg :: s.loadedRegisters },
         [.udiv s.nextReg lv.virtual_register_index rv.virtual_register_index]) := by
  refine ⟨?_, ?_, ?_, ?_⟩ <;>
    simp [llvm_binary_arithmetic, llvm_add, llvm_subtract, llvm_multiply,
      llvm_divide, get_next_local_virtual_register, prepend_loaded]

/-- C5: the exponentiation operator makes `llvm_binary_arithmetic`
fail with the internal-compiler-error classification
(`RC_COMPILER_ERROR`), emitting no instruction and changing no state;
every operator outside the supported four fails the same way. -/
theorem C5_exponent_fatal (lv rv : LLVMValue) (s : CompilerState) :
    llvm_binary_arithmetic .T_EXPONENT lv rv s
      = (.error .RC_COMPILER_ERROR, s, [])
  ∧ ∀ op : TokenType,
      op ∉ [TokenType.T_PLUS, .T_MINUS, .T_STAR, .T_SLASH] →
      llvm_binary_arithmetic op lv rv s = (.error .RC_COMPILER_ERROR, s, []) := by
  refine ⟨rfl, ?_⟩
  intro op hop
  cases op <;> first | rfl | simp at hop

/-- C5 witness: the theorem applied at a concrete state, for the
exponent operator and for an unrelated token. -/
theorem C5_exponent_fatal_witness :
    llvm_binary_arithmetic .T_EXPONENT
        (LLVMVALUE_VIRTUAL_REGISTER 1) (LLVMVALUE_VIRTUAL_REGISTER 2) ⟨3, [], []⟩
      = (.error .RC_COMPILER_ERROR, ⟨3, [], []⟩, [])
  ∧ llvm_binary_arithmetic .T_PRINT
        (LLVMVALUE_VIRTUAL_REGISTER 1) (LLVMVALUE_VIRTUAL_REGISTER 2) ⟨3, [], []⟩
      = (.error .RC_COMPILER_ERROR, ⟨3, [], []⟩, []) := by
  have h := C5_exponent_fatal (LLVMVALUE_VIRTUAL_REGISTER 1)
    (LLVMVALUE_VIRTUAL_REGISTER 2) ⟨3, [], []⟩
  exact ⟨h.1, h.2 .T_PRINT (by decide)⟩

/-- C10: `llvm_print_int` advances the virtual-register counter by
exactly one (its call instruction names no new result register, so that
identifier is skipped in the module) and emits exactly one `printf`
call naming `print_vr`; the loaded-register cache and the free-register
list are untouched — the counter is the only allocator state changed. -/
theorem C10_print_int_frame (print_vr : Nat) (s : CompilerState) :
    llvm_print_int print_vr s
      = ({ s with nextReg := s.nextReg + 1 }, [.printCall print_vr]) := rfl

/-- C6 counterexample: the claim says the generator-program compile
aborts fatally on spawn failure or non-zero exit, but both branches of
its status handling only log (`purple_log(LOG_ERROR, ...)`) and fall
through: neither a `pclose` status of `-1` (spawn/process failure) nor
a non-zero exit produces a fatal outcome. -/
theorem C6_counterexample :
    create_tmp_generator_program_status 1 = ProbeOutcome.loggedError
  ∧ create_tmp_generator_program_status (-1) = ProbeOutcome.loggedError := by
  decide

/-- C6 amended: `get_target_triple` aborts fatally (`RC_ERROR`) on any
non-zero `pclose` status including the `-1` spawn-failure case, while
the generator-program compile merely logs an error and continues on the
same conditions; the datalayout query itself aborts fatally only when
the generated IR file cannot be opened (`RC_FILE_ERROR`) or contains no
datalayout line (`RC_COMPILER_ERROR`). -/
theorem C6_probe_status_amended (st : Int) (line : Option String) :
    (st ≠ 0 → get_target_triple_status st = .fatalError .RC_ERROR)
  ∧ get_target_triple_status 0 = .ok
  ∧ (st ≠ 0 → create_tmp_generator_program_status st = .loggedError)
  ∧ create_tmp_generator_program_status 0 = .ok
  ∧ get_target_datalayout_outcome false line = .error .RC_FILE_ERROR
  ∧ get_target_datalayout_outcome true none = .error .RC_COMPILER_ERROR := by
  refine ⟨fun h => ?_, by decide, fun h => ?_, by decide, rfl, rfl⟩
  · unfold get_target_triple_status
    by_cases h1 : st = -1 <;> simp [h1, h]
  · unfold create_tmp_generator_program_status
    by_cases h1 : st = -1 <;> simp [h1, h]

/-- C6 witness: the amended theorem applied at status `2` — fatal for
the triple probe, logged-only for the generator-program compile. -/
theorem C6_probe_status_amended_witness :
    get_target_triple_status 2 = ProbeOutcome.fatalError .RC_ERROR
  ∧ create_tmp_generator_program_status 2 = ProbeOutcome.loggedError := by
  have h := C6_probe_status_amended 2 none
  exact ⟨h.1 (by decide), h.2.2.1 (by decide)⟩

/-- C7: `llvm_store_constant` obtains its target register from the
free-register stack when non-empty and otherwise mints a fresh one,
emits exactly one store instruction carrying the type representation,
the type-specific numeric format string, the literal value and the
type's byte size, and returns a pointer-tagged (address) reference —
not a value reference — to that register. -/
theorem C7_store_constant (value : Number) (s : CompilerState) :
    (llvm_store_constant value s).2.2
      = [Instr.store (numberTypeLLVMReprs value.type)
          (numberTypeFormatStrings value.type) value.int_value
          ((llvm_store_constant value s).1.virtual_register_index)
          (numberTypeByteSizes value.type)]
  ∧ (llvm_store_constant value s).1.value_type = .virtualRegisterPointer
  ∧ (s.freeRegisters = [] →
      (llvm_store_constant value s).1.virtual_register_index = s.nextReg
      ∧ (llvm_store_constant value s).2.1 = { s with nextReg := s.nextReg + 1 })
  ∧ ∀ r rest, s.freeRegisters = r :: rest →
      (llvm_store_constant value s).1.virtual_register_index = r
      ∧ (llvm_store_constant value s).2.1 = { s with freeRegisters := rest } := by
  cases hf : s.freeRegisters with
  | nil =>
    refine ⟨?_, ?_, fun _ => ⟨?_, ?_⟩, fun r rest hr => absurd hr (by simp)⟩ <;>
      simp [llvm_store_constant, pop_stack_entry_linked_list, hf,
        get_next_local_virtual_register, LLVMVALUE_VIRTUAL_REGISTER_POINTER]
  | cons r rest =>
    refine ⟨?_, ?_, fun hnil => absurd hnil (by simp), fun r' rest' hr => ?_⟩
    · simp [llvm_store_constant, pop_stack_entry_linked_list, hf,
        LLVMVALUE_VIRTUAL_REGISTER_POINTER]
    · simp [llvm_store_constant, pop_stack_entry_linked_list, hf,
        LLVMVALUE_VIRTUAL_REGISTER_POINTER]
    · injection hr with h1 h2
      subst h1; subst h2
      constructor <;>
        simp [llvm_store_constant, pop_stack_entry_linked_list, hf,
          LLVMVALUE_VIRTUAL_REGISTER_POINTER]

/-- C7 witness: the theorem applied to the literal 42 with free
register 9 available — the register is reused and one store emitted. -/
theorem C7_store_constant_witness :
    (llvm_store_constant ⟨.NT_INT32, 42⟩ ⟨1, [], [9]⟩).2.2
        = [Instr.store "i32" "%d" 42 9 4]
  ∧ (llvm_store_constant ⟨.NT_INT32, 42⟩ ⟨1, [], [9]⟩).1.virtual_register_index
        = 9 := by
  have h := C7_store_constant ⟨.NT_INT32, 42⟩ ⟨1, [], [9]⟩
  have h4 := h.2.2.2 9 [] rfl
  refine ⟨?_, h4.1⟩
  rw [h.1, h4.1]
  rfl

/-- C9: the loaded-register cache grows monotonically — both
`llvm_ensure_registers_loaded` and `llvm_binary_arithmetic` leave the
previous cache contents as a suffix of the new cache, only ever
prepending new entries and never removing or invalidating one. -/
theorem C9_cache_append_only (registers : List Nat) (op : TokenType)
    (lv rv : LLVMValue) (s : CompilerState) :
    (∃ new, (llvm_ensure_registers_loaded registers s).2.1.loadedRegisters
        = new ++ s.loadedRegisters)
  ∧ ∃ new, (llvm_binary_arithmetic op lv rv s).2.1.loadedRegisters
        = new ++ s.loadedRegisters := by
  constructor
  · by_cases h : registers ≠ [] ∧ ∀ r ∈ registers, r ∈ s.loadedRegisters
    · refine ⟨[], ?_⟩
      unfold llvm_ensure_registers_loaded
      rw [if_pos h]
      rfl
    · obtain ⟨new, hnew⟩ := ensureLoop_cache_suffix s.loadedRegisters registers s
      refine ⟨new, ?_⟩
      unfold llvm_ensure_registers_loaded
      rw [if_neg h]
      exact hnew
  · cases op <;> first
      | exact ⟨[], rfl⟩
      | exact ⟨[s.nextReg], rfl⟩

/-! ### Supporting lemmas for C8: no emission site other than
`llvm_stack_allocation` produces an `alloca` instruction -/

theorem llvm_store_constant_no_alloca (v : Number) (s : CompilerState) :
    ∀ i ∈ (llvm_store_constant v s).2.2, i.isAlloca = false := by
  cases hf : s.freeRegisters <;>
    · intro i hi
      simp [llvm_store_constant, pop_stack_entry_linked_list, hf,
        get_next_local_virtual_register] at hi
      subst hi
      rfl

theorem llvm_binary_arithmetic_no_alloca (op : TokenType) (lv rv : LLVMValue)
    (s : CompilerState) :
    ∀ i ∈ (llvm_binary_arithmetic op lv rv s).2.2, i.isAlloca = false := by
  cases op <;> intro i hi <;>
    simp [llvm_binary_arithmetic, llvm_add, llvm_subtract, llvm_multiply,
      llvm_divide, get_next_local_virtual_register] at hi <;>
    (subst hi; rfl)

theorem llvm_ensure_no_alloca (registers : List Nat) (s : CompilerState) :
    ∀ i ∈ (llvm_ensure_registers_loaded registers s).2.2, i.isAlloca = false := by
  intro i hi
  have hload : i.isLoad = true := by
    by_cases h : registers ≠ [] ∧ ∀ r ∈ registers, r ∈ s.loadedRegisters
    · unfold llvm_ensure_registers_loaded at hi
      rw [if_pos h] at hi
      simp at hi
    · unfold llvm_ensure_registers_loaded at hi
      rw [if_neg h] at hi
      exact ensureLoop_instrs_load s.loadedRegisters registers s i hi
  cases i <;> simp_all [Instr.isLoad, Instr.isAlloca]

theorem ast_to_llvm_no_alloca (root : ASTNode) (s : CompilerState) :
    ∀ i ∈ (ast_to_llvm root s).2.2, i.isAlloca = false := by
  induction root generalizing s with
  | leaf n =>
    intro i hi
    refine llvm_store_constant_no_alloca n s i ?_
    simpa [ast_to_llvm] using hi
  | node op l r ihl ihr =>
    intro i hi
    have hil := ihl s
    simp only [ast_to_llvm] at hi
    rcases hL : ast_to_llvm l s with ⟨lres, s1, is1⟩
    rw [hL] at hi hil
    cases lres with
    | error e =>
      exact hil i (by simpa using hi)
    | ok lval =>
      have hir := ihr s1
      rcases hR : ast_to_llvm r s1 with ⟨rres, s2, is2⟩
      rw [hR] at hi hir
      cases rres with
      | error e =>
        simp only [List.mem_append] at hi
        rcases (by simpa using hi : i ∈ is1 ∨ i ∈ is2) with h | h
        · exact hil i (by simpa using h)
        · exact hir i (by simpa using h)
      | ok rval =>
        simp [List.mem_append, or_assoc] at hi
        rcases hi with h | h | h | h
        · exact hil i (by simpa using h)
        · exact hir i (by simpa using h)
        · exact llvm_ensure_no_alloca _ _ i h
        · exact llvm_binary_arithmetic_no_alloca _ _ _ _ i h

/-- C8: the function body produced for any stack-entry list and AST
starts with exactly one `alloca` per stack entry, in list order, each
naming the entry's type representation and alignment; every instruction
after that block is a non-`alloca`. -/
theorem C8_allocas_first (stack_entries : List LLVMStackEntry) (root : ASTNode)
    (s : CompilerState) :
    ∃ rest, generate_llvm_body stack_entries root s
        = stack_entries.map (fun e =>
            Instr.alloca e.reg (numberTypeLLVMReprs e.type) e.align_bytes) ++ rest
      ∧ ∀ i ∈ rest, i.isAlloca = false := by
  have hast := ast_to_llvm_no_alloca root s
  unfold generate_llvm_body
  rcases hA : ast_to_llvm root s with ⟨res, s1, is⟩
  rw [hA] at hast
  cases res with
  | ok v =>
    refine ⟨is ++ [.printCall v.virtual_register_index], ?_, ?_⟩
    · simp [llvm_stack_allocation, llvm_print_int,
        get_next_local_virtual_register, List.append_assoc]
    · intro i hi
      rcases List.mem_append.mp hi with h | h
      · exact hast i (by simpa using h)
      · simp only [List.mem_singleton] at h
        subst h
        rfl
  | error e =>
    refine ⟨is, ?_, fun i hi => hast i (by simpa using hi)⟩
    simp [llvm_stack_allocation]

/-- C8 witness: the theorem applied to one stack entry and a literal
leaf — the body opens with the single `alloca` and everything after it
is a non-`alloca`. -/
theorem C8_allocas_first_witness :
    ∃ rest, generate_llvm_body [⟨1, .NT_INT32, 4⟩] (.leaf ⟨.NT_INT32, 5⟩) ⟨2, [], [1]⟩
        = [Instr.alloca 1 "i32" 4] ++ rest ∧ ∀ i ∈ rest, i.isAlloca = false := by
  simpa [numberTypeLLVMReprs] using
    C8_allocas_first [⟨1, .NT_INT32, 4⟩] (.leaf ⟨.NT_INT32, 5⟩) ⟨2, [], [1]⟩

end Purple
